import Mathlib

/-!
Verification of the Gmail/HubSpot sync frontend and its storage model.

The UI component (`Home`), the relative-time formatter, the CMS test helper
and the inbox query construction are embedded directly from the TypeScript
source. The persistence and sync-worker layer only exists in the repository
as a SQL schema plus its frontend callers, so those operations are modelled
from the design document (marked `Modelled from the spec:`), faithful to the
schema where the schema speaks (keys, defaults, cascading deletes).

Strings from the JavaScript side are modelled as Lean `String`s; instants
(`timestamptz` / JS epoch milliseconds) are modelled as `Int`.
-/

/-- Connection lifecycle state of one integration card, from
`type ConnectionState = "connecting" | "disconnected" | "connected"`. -/
inductive ConnectionState
  | connecting
  | disconnected
  | connected
deriving DecidableEq, Repr

/-- The part of the `GmailStatus` payload that the sync gating reads:
`connected` plus the optional `baseline_ready` flag. -/
structure GmailStatusPayload where
  connected : Bool
  baseline_ready : Option Bool
deriving DecidableEq, Repr

/-- `const baselineReady = gmailStatus.baseline_ready ?? false` from `Home`. -/
def baselineReady (gmailStatus : GmailStatusPayload) : Bool :=
  gmailStatus.baseline_ready.getD false

/-- `const canProceed = gmailState === "connected" && hubspotState === "connected" && baselineReady`. -/
def canProceed (gmailState hubspotState : ConnectionState)
    (gmailStatus : GmailStatusPayload) : Bool :=
  gmailState == ConnectionState.connected
    && hubspotState == ConnectionState.connected
    && baselineReady gmailStatus

/-- The `disabled` expression of the "Next" button: `!canProceed || isSyncing`. -/
def nextButtonDisabled (gmailState hubspotState : ConnectionState)
    (gmailStatus : GmailStatusPayload) (isSyncing : Bool) : Bool :=
  !(canProceed gmailState hubspotState gmailStatus) || isSyncing

/-- The `disabled` expression of the "Sync again" button:
`!gmailStatus.connected || !baselineReady || isSyncing`. -/
def syncAgainButtonDisabled (gmailStatus : GmailStatusPayload) (isSyncing : Bool) : Bool :=
  !gmailStatus.connected || !(baselineReady gmailStatus) || isSyncing

/-- The component state of `Home` that the automatic-sync effects read and
write; `syncsStarted` counts the `triggerSync()` calls made by the automatic
trigger, so that "fires exactly once" is expressible. -/
structure HomeState where
  gmailState : ConnectionState
  hubspotState : ConnectionState
  userId : Option String
  autoSynced : Bool
  syncsStarted : Nat
deriving DecidableEq, Repr

/-- External state updates that can hit the `Home` component: a Gmail status
result, a HubSpot status result, or a change of the signed-in user. -/
inductive HomeEvent
  | setGmailState (s : ConnectionState)
  | setHubspotState (s : ConnectionState)
  | setUser (u : Option String)
deriving DecidableEq, Repr

/-- Events that update a connection status without changing the user; within
one user session only these occur. -/
def statusEvent : HomeEvent → Bool
  | HomeEvent.setGmailState _ => true
  | HomeEvent.setHubspotState _ => true
  | HomeEvent.setUser _ => false

/-- Apply one external update to the component state. -/
def applyEvent (s : HomeState) : HomeEvent → HomeState
  | HomeEvent.setGmailState g => { s with gmailState := g }
  | HomeEvent.setHubspotState h => { s with hubspotState := h }
  | HomeEvent.setUser u => { s with userId := u }

/-- The guard of the automatic sync effect:
`gmailState === "connected" && hubspotState === "connected" && userId && !autoSynced`
(the `!autoSynced` part is applied separately in `runHomeEffects`). -/
def readyToAutoSync (s : HomeState) : Bool :=
  s.gmailState == ConnectionState.connected
    && s.hubspotState == ConnectionState.connected
    && s.userId.isSome

/-- The two effects of `Home` that govern the automatic trigger, in their
declaration order: the first resets `autoSynced` when `userId` changes; the
second, when both connections are connected, a user is present and
`autoSynced` is false, sets `autoSynced` and starts one sync. -/
def runHomeEffects (prevUser : Option String) (s : HomeState) : HomeState :=
  let s1 := if s.userId ≠ prevUser then { s with autoSynced := false } else s
  if readyToAutoSync s1 && !s1.autoSynced then
    { s1 with autoSynced := true, syncsStarted := s1.syncsStarted + 1 }
  else s1

/-- One render cycle: apply the update, then run the effects against the
previous user id. -/
def homeStep (s : HomeState) (e : HomeEvent) : HomeState :=
  runHomeEffects s.userId (applyEvent s e)

/-- Run a sequence of updates through the component. -/
def homeRun (s : HomeState) (events : List HomeEvent) : HomeState :=
  events.foldl homeStep s

/-- The initial component state: both cards `"connecting"`, `autoSynced`
false, no sync started yet. -/
def initHomeState (u : Option String) : HomeState :=
  { gmailState := ConnectionState.connecting
    hubspotState := ConnectionState.connecting
    userId := u
    autoSynced := false
    syncsStarted := 0 }

/-- The invariant of a user session (fixed user `u`, only status updates):
the automatic trigger has started at most one sync, it has fired exactly
when one sync was started, and whenever both connections are connected the
trigger has already fired. -/
def sessionInvariant (u : String) (s : HomeState) : Prop :=
  s.userId = some u ∧ s.syncsStarted ≤ 1 ∧
  (s.autoSynced = true ↔ s.syncsStarted = 1) ∧
  (readyToAutoSync s = true → s.autoSynced = true)

/-- JavaScript `String.prototype.trim`, on strings modelled as character
lists: strip whitespace from both ends. -/
def jsTrim (s : List Char) : List Char :=
  ((s.dropWhile Char.isWhitespace).reverse.dropWhile Char.isWhitespace).reverse

/-- The `query` search parameter of the `/api/inbox/messages` request: the
debounce effect stores `searchTerm.trim()` in `debouncedSearch`, and the
request effect runs `if (debouncedSearch) params.set("query", debouncedSearch)`,
so an empty trimmed term is omitted. -/
def inboxQueryParam (searchTerm : List Char) : Option (List Char) :=
  let debouncedSearch := jsTrim searchTerm
  if debouncedSearch = [] then none else some debouncedSearch

/-- The fields of an `InboxMessage` that the selection logic touches. -/
structure InboxMessage where
  id : String
  subject : String
  sender : Option String
  preview : String
  status : String
deriving DecidableEq, Repr

/-- The updater passed to `setSelectedMessage` after a successful load:
empty payload clears the selection; a previous selection whose id is still
present is refreshed to the newly loaded copy (`payload.find`); otherwise
`payload[0]` is selected. -/
def selectAfterLoad : List InboxMessage → Option InboxMessage → Option InboxMessage
  | [], _ => none
  | first :: rest, previous =>
    match previous with
    | some p =>
      match (first :: rest).find? (fun item => item.id == p.id) with
      | some stillExists => some stillExists
      | none => some first
    | none => some first

/-- The whole load continuation: on success, store the payload and update the
selection; on failure, clear the list and the selection. -/
def applyLoadResult (result : Except String (List InboxMessage))
    (previous : Option InboxMessage) : List InboxMessage × Option InboxMessage :=
  match result with
  | Except.ok payload => (payload, selectAfterLoad payload previous)
  | Except.error _ => ([], none)

/-- The response shape of the CMS test endpoint, from `hubspotCmsTest.ts`. -/
structure CmsTestResponse where
  status : String
  payload : List (String × String)
  hubspot_response : List (String × String)
deriving DecidableEq, Repr

/-- The parts of a `fetch` `Response` that `triggerCmsBlogPostTest` reads:
the `ok` flag, the body as text, and the body as parsed JSON. -/
structure FetchResponse where
  ok : Bool
  text : String
  json : CmsTestResponse
deriving DecidableEq, Repr

/-- The fixed fallback error message of `triggerCmsBlogPostTest`. -/
def cmsFallback : String := "Unable to trigger CMS blog post test."

/-- `triggerCmsBlogPostTest` from `hubspotCmsTest.ts`: on a non-ok response
throw `detail || fallback` (the JS `||` takes the fallback exactly when the
body text is empty); otherwise return the parsed JSON body. -/
def triggerCmsBlogPostTest (response : FetchResponse) : Except String CmsTestResponse :=
  if !response.ok then
    Except.error (if response.text = "" then cmsFallback else response.text)
  else
    Except.ok response.json

/-- `formatRelativeTime` from `Home`. `parseDate` stands for
`new Date(iso).getTime()` (`none` when the result is `NaN`), `now` for
`Date.now()`. The JS guard `if (!iso) return "never"` is true for null,
undefined and the empty string, hence the explicit empty-string case.
`Math.floor` of a quotient of integers is `Int.fdiv`. -/
def formatRelativeTime (parseDate : String → Option Int) (now : Int)
    (iso : Option String) : String :=
  match iso with
  | none => "never"
  | some s =>
    if s = "" then "never"
    else
      match parseDate s with
      | none => "unknown"
      | some t =>
        let diff := now - t
        let mins := Int.fdiv diff 60000
        if mins < 1 then "just now"
        else if mins < 60 then toString mins ++ "m ago"
        else
          let hours := Int.fdiv mins 60
          if hours < 24 then toString hours ++ "h ago"
          else
            let days := Int.fdiv hours 24
            toString days ++ "d ago"

/-- A row of `gmail_connections` (schema.sql): one Gmail connection per user,
keyed by `user_id`, carrying the baseline marker that gates ingestion. -/
structure GmailConnection where
  user_id : String
  gmail_user : String
  email : Option String
  baseline_at : Int
  baseline_ready : Bool
  last_poll_at : Option Int
deriving DecidableEq, Repr

/-- A message as fetched from the external mailbox API, before ingestion. -/
structure RawMessage where
  message_id : String
  thread_id : Option String
  subject : String
  sender : String
  snippet : String
  hasAttachmentParts : Bool
  hasHttpLinks : Bool
  hasInlineImages : Bool
  received_at : Int
deriving DecidableEq, Repr

/-- A row of `gmail_messages` (schema.sql): the per-user message cache, with
a `unique (user_id, message_id)` constraint and `status text default 'new'`. -/
structure StoredMessage where
  user_id : String
  message_id : String
  subject : String
  sender : String
  snippet : String
  status : String
  has_attachments : Bool
  has_links : Bool
  has_images : Bool
  crm_record_url : Option String
  error : Option String
  received_at : Int
deriving DecidableEq, Repr

/-- The dedup unit for ingestion: the composite key `(user_id, message_id)`. -/
def messageKey (m : StoredMessage) : String × String := (m.user_id, m.message_id)

/-- Two rows collide exactly when they share `(user_id, message_id)`. -/
def sameKey (a b : StoredMessage) : Bool :=
  a.user_id == b.user_id && a.message_id == b.message_id

/-- Modelled from the spec: the outcome that the external enrichment/CRM
write-back collaborator reports for one message (the collaborator itself is
not in the repository). -/
inductive EnrichmentOutcome
  | success (crmUrl : String)
  | failure (detail : String)
deriving DecidableEq, Repr

/-- Modelled from the spec: the Status Classifier's initial ingestion of a
raw message into a stored row — status `new` (also the schema default),
flags derived from the raw message, CRM link and error empty. -/
def ingestRow (u : String) (r : RawMessage) : StoredMessage :=
  { user_id := u
    message_id := r.message_id
    subject := r.subject
    sender := r.sender
    snippet := r.snippet
    status := "new"
    has_attachments := r.hasAttachmentParts
    has_links := r.hasHttpLinks
    has_images := r.hasInlineImages
    crm_record_url := none
    error := none
    received_at := r.received_at }

/-- Modelled from the spec: merging an incoming row into an existing row with
the same key — subject/sender/snippet are refreshed unconditionally; the
mutable fields (status, crm_record_url, error) are overwritten only if the
incoming data is not older. The key fields are never changed. -/
def mergeRow (old incoming : StoredMessage) : StoredMessage :=
  if old.received_at ≤ incoming.received_at then
    { old with
      subject := incoming.subject
      sender := incoming.sender
      snippet := incoming.snippet
      status := incoming.status
      crm_record_url := incoming.crm_record_url
      error := incoming.error
      received_at := incoming.received_at }
  else
    { old with
      subject := incoming.subject
      sender := incoming.sender
      snippet := incoming.snippet }

/-- Modelled from the spec: insert-or-update keyed by `(user_id, message_id)`
(the `unique (user_id, message_id)` constraint of `gmail_messages` makes the
conflict case an update, never a second insert). -/
def upsertMessage (incoming : StoredMessage) (store : List StoredMessage) :
    List StoredMessage :=
  if store.any (sameKey incoming) then
    store.map (fun row => if sameKey incoming row then mergeRow row incoming else row)
  else
    store ++ [incoming]

/-- Insert one raw message into a list sorted by `received_at` ascending. -/
def insertByReceived (r : RawMessage) : List RawMessage → List RawMessage
  | [] => [r]
  | x :: xs =>
    if r.received_at ≤ x.received_at then r :: x :: xs else x :: insertByReceived r xs

/-- Sort fetched messages oldest-first, as the Sync Worker requires. -/
def sortOldestFirst : List RawMessage → List RawMessage
  | [] => []
  | x :: xs => insertByReceived x (sortOldestFirst xs)

/-- Modelled from the spec: the fetch floor of a sync pass —
`max(baseline_at, last_poll_at)` when `last_poll_at` is set, else
`baseline_at`. -/
def fetchFloor (conn : GmailConnection) : Int :=
  match conn.last_poll_at with
  | some t => max conn.baseline_at t
  | none => conn.baseline_at

/-- Modelled from the spec: fetch up to `maxMessages` messages with
`received_at` strictly greater than the floor, ordered oldest-first. -/
def fetchWindow (mailbox : List RawMessage) (floorAt : Int) (maxMessages : Nat) :
    List RawMessage :=
  (sortOldestFirst (mailbox.filter (fun r => floorAt < r.received_at))).take maxMessages

/-- Insert one stored message into a list sorted by `received_at` descending. -/
def insertNewestFirst (m : StoredMessage) : List StoredMessage → List StoredMessage
  | [] => [m]
  | x :: xs =>
    if x.received_at ≤ m.received_at then m :: x :: xs else x :: insertNewestFirst m xs

/-- Sort stored messages newest-first, for the retention trim. -/
def sortNewestFirst : List StoredMessage → List StoredMessage
  | [] => []
  | x :: xs => insertNewestFirst x (sortNewestFirst xs)

/-- Modelled from the spec: evict the user's oldest rows beyond the retention
cap, keeping the `cap` most recently received rows of that user and every
other user's rows. -/
def evictOldest (u : String) (cap : Nat) (store : List StoredMessage) :
    List StoredMessage :=
  let keep := (sortNewestFirst (store.filter (fun m => m.user_id == u))).take cap
  store.filter (fun m => m.user_id != u || keep.contains m)

/-- Modelled from the spec: one sync pass of the Sync Worker (the worker is
not in the repository; only its schema and HTTP callers are). Compute the
fetch floor, fetch the window oldest-first, ingest and upsert each message,
advance `last_poll_at` to the `received_at` of the last message actually
processed, then trim the cache. -/
def runSync (conn : GmailConnection) (mailbox : List RawMessage)
    (maxMessages cap : Nat) (store : List StoredMessage) :
    GmailConnection × List StoredMessage :=
  let batch := fetchWindow mailbox (fetchFloor conn) maxMessages
  let store1 := batch.foldl (fun acc r => upsertMessage (ingestRow conn.user_id r) acc) store
  let conn1 :=
    match batch.getLast? with
    | some r => { conn with last_poll_at := some r.received_at }
    | none => conn
  (conn1, evictOldest conn.user_id cap store1)

/-- Modelled from the spec: the enrichment/CRM write-back collaborator
reporting back through the Status Classifier for one message — success sets
`processed` and the CRM link, failure sets `error` with the detail. -/
def applyEnrichment (u mid : String) (outcome : EnrichmentOutcome)
    (store : List StoredMessage) : List StoredMessage :=
  store.map (fun row =>
    if row.user_id == u && row.message_id == mid then
      match outcome with
      | EnrichmentOutcome.success crmUrl =>
        { row with status := "processed", crm_record_url := some crmUrl, error := none }
      | EnrichmentOutcome.failure detail =>
        { row with status := "error", error := some detail }
    else row)

/-- The closed status enumeration of the design: `new`, `processed`, `error`. -/
def validStatus (s : String) : Prop :=
  s = "new" ∨ s = "processed" ∨ s = "error"

instance (s : String) : Decidable (validStatus s) := by
  unfold validStatus
  infer_instance

/-- The persisted database: the `gmail_connections` and `gmail_messages`
tables of schema.sql. -/
structure Db where
  connections : List GmailConnection
  messages : List StoredMessage
deriving DecidableEq, Repr

/-- Modelled from the spec: the `/api/google/disconnect` handler invoked by
`handleDisconnectGmail` (the handler is not in the repository). It deletes
the user's `gmail_connections` row; the schema's
`references gmail_connections(user_id) on delete cascade` then deletes every
`gmail_messages` row of that user. -/
def disconnectGmail (u : String) (db : Db) : Db :=
  { connections := db.connections.filter (fun c => c.user_id != u)
    messages := db.messages.filter (fun m => m.user_id != u) }

/-- A concrete connection row, for evaluating the model on sample data. -/
def sampleConnection (uid : String) (base : Int) : GmailConnection :=
  { user_id := uid, gmail_user := "g", email := none, baseline_at := base,
    baseline_ready := true, last_poll_at := none }

/-- A concrete cached message row, for evaluating the model on sample data. -/
def sampleStored (uid mid : String) (ts : Int) : StoredMessage :=
  { user_id := uid, message_id := mid, subject := "s", sender := "a",
    snippet := "sn", status := "new", has_attachments := false,
    has_links := false, has_images := false, crm_record_url := none,
    error := none, received_at := ts }

/-- A concrete two-user database, for evaluating the model on sample data. -/
def sampleDb : Db :=
  { connections := [sampleConnection ("u1") 100, sampleConnection ("u2") 200]
    messages := [sampleStored ("u1") ("m1") 120, sampleStored ("u2") ("m2") 220] }

/-- C9: `triggerCmsBlogPostTest` returns the parsed JSON response body
exactly when the HTTP response is ok, and fails exactly when the response is
not ok, with the error message equal to the response body text when that
text is non-empty and the fixed fallback message otherwise. -/
theorem triggerCmsBlogPostTest_ok_iff (response : FetchResponse) :
    (response.ok = true → triggerCmsBlogPostTest response = Except.ok response.json) ∧
    (response.ok = false → response.text ≠ "" →
      triggerCmsBlogPostTest response = Except.error response.text) ∧
    (response.ok = false → response.text = "" →
      triggerCmsBlogPostTest response = Except.error cmsFallback) ∧
    (∀ v, triggerCmsBlogPostTest response = Except.ok v →
      response.ok = true ∧ v = response.json) := by
  cases hok : response.ok <;>
    by_cases htxt : response.text = "" <;>
      simp [triggerCmsBlogPostTest, hok, htxt]

/-- Witness for C9: a failed response with an empty body yields the fixed
fallback message. -/
theorem triggerCmsBlogPostTest_ok_iff_witness :
    triggerCmsBlogPostTest
      { ok := false, text := ""
        json := { status := "ok", payload := [], hubspot_response := [] } } =
      Except.error cmsFallback :=
  (triggerCmsBlogPostTest_ok_iff _).2.2.1 rfl rfl

/-- C7: a search term that is empty or consists only of whitespace is
treated as absent — the trimmed debounced term is empty, so the `query`
parameter of the message request is omitted. -/
theorem inboxQueryParam_whitespace_none (searchTerm : List Char)
    (h : ∀ c ∈ searchTerm, c.isWhitespace = true) :
    inboxQueryParam searchTerm = none := by
  have h1 : searchTerm.dropWhile Char.isWhitespace = [] :=
    List.dropWhile_eq_nil_iff.mpr h
  simp [inboxQueryParam, jsTrim, h1]

/-- Witness for C7: a concrete whitespace-only search term produces no
`query` parameter. -/
theorem inboxQueryParam_whitespace_none_witness :
    (∀ c ∈ [' ', '\t', '\n'], c.isWhitespace = true) ∧
      inboxQueryParam [' ', '\t', '\n'] = none :=
  ⟨by decide, inboxQueryParam_whitespace_none _ (by decide)⟩

/-- C5: both manual sync entry points are disabled whenever `baseline_ready`
is false or a sync is already in flight, and an enabled entry point implies
the Gmail connection exists, the baseline is ready and no sync is in
flight. -/
theorem manualSyncButtons_disabled (gmailState hubspotState : ConnectionState)
    (gmailStatus : GmailStatusPayload) (isSyncing : Bool)
    (h : baselineReady gmailStatus = false ∨ isSyncing = true) :
    nextButtonDisabled gmailState hubspotState gmailStatus isSyncing = true ∧
    syncAgainButtonDisabled gmailStatus isSyncing = true ∧
    (∀ (gs hs : ConnectionState) (st : GmailStatusPayload) (sy : Bool),
      (nextButtonDisabled gs hs st sy = false →
        gs = ConnectionState.connected ∧ hs = ConnectionState.connected ∧
        baselineReady st = true ∧ sy = false) ∧
      (syncAgainButtonDisabled st sy = false →
        st.connected = true ∧ baselineReady st = true ∧ sy = false)) := by
  refine ⟨?_, ?_, ?_⟩
  · rcases h with hb | hs
    · simp [nextButtonDisabled, canProceed, hb]
    · simp [nextButtonDisabled, hs]
  · rcases h with hb | hs
    · simp [syncAgainButtonDisabled, hb]
    · simp [syncAgainButtonDisabled, hs]
  · intro gs hs st sy
    constructor
    · intro hen
      simp [nextButtonDisabled, canProceed] at hen
      tauto
    · intro hen
      simp [syncAgainButtonDisabled] at hen
      tauto

/-- Witness for C5: with the baseline not ready, both buttons are disabled
at a concrete state. -/
theorem manualSyncButtons_disabled_witness :
    (baselineReady { connected := true, baseline_ready := some false } = false ∨
      False = True) ∧
    nextButtonDisabled ConnectionState.connected ConnectionState.connected
      { connected := true, baseline_ready := some false } false = true ∧
    syncAgainButtonDisabled { connected := true, baseline_ready := some false } false = true := by
  refine ⟨Or.inl (by decide), ?_, ?_⟩
  · exact (manualSyncButtons_disabled ConnectionState.connected ConnectionState.connected
      { connected := true, baseline_ready := some false } false (Or.inl (by decide))).1
  · exact (manualSyncButtons_disabled ConnectionState.connected ConnectionState.connected
      { connected := true, baseline_ready := some false } false (Or.inl (by decide))).2.1

/-- C8: after a completed load, the selection is `none` exactly when the
stored list is empty (in particular after a failed load); any selected
message is an element of the loaded list; a previous selection whose id is
still present is kept, refreshed to a loaded copy with that id; otherwise
the first message of the list is selected. -/
theorem selectAfterLoad_correct (payload : List InboxMessage)
    (previous : Option InboxMessage) (e : String) :
    (applyLoadResult (Except.error e) previous = ([], none)) ∧
    ((applyLoadResult (Except.ok payload) previous).2 = none ↔ payload = []) ∧
    (∀ m, (applyLoadResult (Except.ok payload) previous).2 = some m → m ∈ payload) ∧
    (∀ p, previous = some p → (∃ m ∈ payload, m.id = p.id) →
      ∃ m, selectAfterLoad payload previous = some m ∧ m ∈ payload ∧ m.id = p.id) ∧
    (∀ p, previous = some p → (∀ m ∈ payload, m.id ≠ p.id) →
      selectAfterLoad payload previous = payload.head?) ∧
    (previous = none → selectAfterLoad payload previous = payload.head?) := by
  refine ⟨rfl, ?_, ?_, ?_, ?_, ?_⟩
  · show selectAfterLoad payload previous = none ↔ payload = []
    cases payload with
    | nil => simp [selectAfterLoad]
    | cons first rest =>
      cases previous with
      | none => simp [selectAfterLoad]
      | some p =>
        cases hfind : (first :: rest).find? (fun item => item.id == p.id) with
        | none => simp [selectAfterLoad, hfind]
        | some a => simp [selectAfterLoad, hfind]
  · intro m hm
    replace hm : selectAfterLoad payload previous = some m := hm
    cases payload with
    | nil => simp [selectAfterLoad] at hm
    | cons first rest =>
      cases previous with
      | none =>
        simp [selectAfterLoad] at hm
        simp [hm]
      | some p =>
        cases hfind : (first :: rest).find? (fun item => item.id == p.id) with
        | none =>
          simp [selectAfterLoad, hfind] at hm
          simp [hm]
        | some a =>
          simp [selectAfterLoad, hfind] at hm
          exact hm ▸ List.mem_of_find?_eq_some hfind
  · rintro p rfl ⟨m0, hm0, hid⟩
    cases payload with
    | nil => simp at hm0
    | cons first rest =>
      have hsome : ((first :: rest).find? (fun item => item.id == p.id)).isSome = true :=
        List.find?_isSome.mpr ⟨m0, hm0, beq_iff_eq.mpr hid⟩
      obtain ⟨a, ha⟩ := Option.isSome_iff_exists.mp hsome
      have hpa := List.find?_some ha
      simp only [beq_iff_eq] at hpa
      refine ⟨a, ?_, List.mem_of_find?_eq_some ha, hpa⟩
      simp [selectAfterLoad, ha]
  · rintro p rfl hnone
    have hfind : (payload).find? (fun item => item.id == p.id) = none :=
      List.find?_eq_none.mpr (fun x hx => by
        simp only [beq_iff_eq]
        exact fun hc => hnone x hx hc)
    cases payload with
    | nil => simp [selectAfterLoad]
    | cons first rest => simp [selectAfterLoad, hfind]
  · rintro rfl
    cases payload with
    | nil => simp [selectAfterLoad]
    | cons first rest => simp [selectAfterLoad]

/-- Witness for C8: a previously selected message whose id is still present
in the freshly loaded list is kept, refreshed to the loaded copy. -/
theorem selectAfterLoad_correct_witness :
    ∃ m, selectAfterLoad
        [{ id := "a", subject := "s1", sender := none, preview := "p1", status := "new" },
         { id := "b", subject := "s2", sender := none, preview := "p2", status := "new" }]
        (some { id := "b", subject := "old", sender := none, preview := "old", status := "new" }) =
        some m ∧
      m ∈ [{ id := "a", subject := "s1", sender := none, preview := "p1", status := "new" },
           { id := "b", subject := "s2", sender := none, preview := "p2", status := "new" }] ∧
      m.id = InboxMessage.id { id := "b", subject := "old", sender := none, preview := "old", status := "new" } :=
  (selectAfterLoad_correct _ _ ("")).2.2.2.1 _ rfl
    ⟨{ id := "b", subject := "s2", sender := none, preview := "p2", status := "new" },
      by decide, by decide⟩

/-- Euclidean division by positive divisors composes: dividing by `m` and
then by `n` equals dividing by `m * n`. -/
theorem ediv_ediv_of_pos (a : Int) {m n : Int} (hm : 0 < m) (hn : 0 < n) :
    a / m / n = a / (m * n) := by
  have hmn : 0 < m * n := mul_pos hm hn
  refine le_antisymm ?_ ?_
  · have h1 : a / m / n < a / (m * n) + 1 := by
      rw [Int.ediv_lt_iff_lt_mul hn, Int.ediv_lt_iff_lt_mul hm]
      calc a < (a / (m * n) + 1) * (m * n) := Int.lt_ediv_add_one_mul_self a hmn
        _ = (a / (m * n) + 1) * n * m := by ring
    omega
  · rw [Int.le_ediv_iff_mul_le hn, Int.le_ediv_iff_mul_le hm]
    calc a / (m * n) * n * m = a / (m * n) * (m * n) := by ring
      _ ≤ a := Int.ediv_mul_le a (ne_of_gt hmn)

/-- Flooring division (`Math.floor` of a quotient) by positive divisors
composes the same way. -/
theorem fdiv_fdiv_of_pos (a : Int) {m n : Int} (hm : 0 < m) (hn : 0 < n) :
    Int.fdiv (Int.fdiv a m) n = Int.fdiv a (m * n) := by
  rw [Int.fdiv_eq_ediv _ (le_of_lt hm), Int.fdiv_eq_ediv _ (le_of_lt hn),
    Int.fdiv_eq_ediv _ (le_of_lt (mul_pos hm hn)), ediv_ediv_of_pos a hm hn]

/-- C10 counterexample: the claim says every string that does not parse to a
valid date yields `"unknown"`, but the empty string does not parse (in JS,
`new Date("")` is invalid) and the code's `!iso` guard catches it first,
yielding `"never"`. -/
theorem formatRelativeTime_empty_string_counterexample :
    ¬ (∀ (parseDate : String → Option Int) (now : Int) (s : String),
        parseDate s = none → formatRelativeTime parseDate now (some s) = "unknown") := by
  intro h
  have h2 := h (fun _ => none) 0 ("") rfl
  exact absurd h2 (by decide)

/-- C10 (amended): `formatRelativeTime` is total over nullable strings —
`"never"` for a null/undefined or empty-string input, `"unknown"` for any
non-empty string that does not parse to a valid date, `"just now"` when the
floor of the elapsed minutes is below one, `{m}m ago` below 60 minutes,
`{h}h ago` below 24 hours, and `{d}d ago` otherwise, with m, h, d the floor
of the elapsed minutes, hours and days. -/
theorem formatRelativeTime_total (parseDate : String → Option Int) (now : Int)
    (s : String) :
    formatRelativeTime parseDate now none = "never" ∧
    formatRelativeTime parseDate now (some ("")) = "never" ∧
    (s ≠ "" → parseDate s = none →
      formatRelativeTime parseDate now (some s) = "unknown") ∧
    (∀ t, s ≠ "" → parseDate s = some t →
      (Int.fdiv (now - t) 60000 < 1 →
        formatRelativeTime parseDate now (some s) = "just now") ∧
      (1 ≤ Int.fdiv (now - t) 60000 → Int.fdiv (now - t) 60000 < 60 →
        formatRelativeTime parseDate now (some s) =
          toString (Int.fdiv (now - t) 60000) ++ "m ago") ∧
      (60 ≤ Int.fdiv (now - t) 60000 → Int.fdiv (now - t) 3600000 < 24 →
        formatRelativeTime parseDate now (some s) =
          toString (Int.fdiv (now - t) 3600000) ++ "h ago") ∧
      (24 ≤ Int.fdiv (now - t) 3600000 →
        formatRelativeTime parseDate now (some s) =
          toString (Int.fdiv (now - t) 86400000) ++ "d ago")) := by
  refine ⟨rfl, by simp [formatRelativeTime], ?_, ?_⟩
  · intro hs hp
    simp [formatRelativeTime, hs, hp]
  · intro t hs hp
    have hH : Int.fdiv (Int.fdiv (now - t) 60000) 60 = Int.fdiv (now - t) 3600000 := by
      have := fdiv_fdiv_of_pos (now - t) (m := 60000) (n := 60) (by norm_num) (by norm_num)
      norm_num at this
      exact this
    have hD : Int.fdiv (Int.fdiv (now - t) 3600000) 24 = Int.fdiv (now - t) 86400000 := by
      have := fdiv_fdiv_of_pos (now - t) (m := 3600000) (n := 24) (by norm_num) (by norm_num)
      norm_num at this
      exact this
    have hbody : formatRelativeTime parseDate now (some s) =
        (if Int.fdiv (now - t) 60000 < 1 then "just now"
         else if Int.fdiv (now - t) 60000 < 60 then
           toString (Int.fdiv (now - t) 60000) ++ "m ago"
         else if Int.fdiv (Int.fdiv (now - t) 60000) 60 < 24 then
           toString (Int.fdiv (Int.fdiv (now - t) 60000) 60) ++ "h ago"
         else
           toString (Int.fdiv (Int.fdiv (Int.fdiv (now - t) 60000) 60) 24) ++ "d ago") := by
      simp only [formatRelativeTime]
      rw [if_neg hs, hp]
    refine ⟨?_, ?_, ?_, ?_⟩
    · intro h1
      rw [hbody, if_pos h1]
    · intro h1 h60
      rw [hbody, if_neg (not_lt.mpr h1), if_pos h60]
    · intro h60 h24
      rw [← hH] at h24
      rw [hbody, if_neg (not_lt.mpr (le_trans (by norm_num : (1 : Int) ≤ 60) h60)),
        if_neg (not_lt.mpr h60), if_pos h24, hH]
    · intro h24
      rw [← hH] at h24
      have hEH : Int.fdiv (Int.fdiv (now - t) 60000) 60 = Int.fdiv (now - t) 60000 / 60 :=
        Int.fdiv_eq_ediv _ (by norm_num)
      have h1440 : 24 * 60 ≤ Int.fdiv (now - t) 60000 :=
        (Int.le_ediv_iff_mul_le (by norm_num)).mp (hEH ▸ h24)
      rw [hbody, if_neg (not_lt.mpr (le_trans (by norm_num : (1 : Int) ≤ 24 * 60) h1440)),
        if_neg (not_lt.mpr (le_trans (by norm_num : (60 : Int) ≤ 24 * 60) h1440)),
        if_neg (not_lt.mpr h24), hH, hD]

/-- Witness for C10: an instant two minutes in the past formats as minutes. -/
theorem formatRelativeTime_total_witness :
    ("x" : String) ≠ "" ∧
    formatRelativeTime (fun _ => some (0 : Int)) 120000 (some ("x")) =
      toString (Int.fdiv (120000 - 0) 60000) ++ "m ago" :=
  ⟨by decide, ((formatRelativeTime_total (fun _ => some (0 : Int)) 120000 ("x")).2.2.2 0
      (by decide) rfl).2.1 (by decide) (by decide)⟩

/-- A status update leaves the user id, the fired flag and the sync counter
of the raw state unchanged. -/
theorem applyEvent_status {s : HomeState} {e : HomeEvent} (he : statusEvent e = true) :
    (applyEvent s e).userId = s.userId ∧ (applyEvent s e).autoSynced = s.autoSynced ∧
    (applyEvent s e).syncsStarted = s.syncsStarted := by
  cases e <;> simp_all [applyEvent, statusEvent]

/-- On a status update the reset effect is a no-op, so a render cycle is the
update followed by the (conditional) automatic fire. -/
theorem homeStep_status_eq {s : HomeState} {e : HomeEvent} (he : statusEvent e = true) :
    homeStep s e =
      if readyToAutoSync (applyEvent s e) && !(applyEvent s e).autoSynced then
        { applyEvent s e with
          autoSynced := true
          syncsStarted := (applyEvent s e).syncsStarted + 1 }
      else applyEvent s e := by
  have hu : (applyEvent s e).userId = s.userId := (applyEvent_status he).1
  unfold homeStep runHomeEffects
  simp [hu]

/-- The automatic fire does not change which connections are connected. -/
theorem readyToAutoSync_homeStep {s : HomeState} {e : HomeEvent} (he : statusEvent e = true) :
    readyToAutoSync (homeStep s e) = readyToAutoSync (applyEvent s e) := by
  rw [homeStep_status_eq he]
  split
  · simp [readyToAutoSync]
  · rfl

/-- The session invariant is preserved by every render cycle on a status
update. -/
theorem sessionInvariant_step {u : String} {s : HomeState} {e : HomeEvent}
    (hs : sessionInvariant u s) (he : statusEvent e = true) :
    sessionInvariant u (homeStep s e) := by
  obtain ⟨h1, h2, h3, h4⟩ := hs
  obtain ⟨hu, ha, hc⟩ := applyEvent_status (s := s) he
  rw [homeStep_status_eq he]
  split
  · rename_i hfire
    rw [Bool.and_eq_true, Bool.not_eq_true'] at hfire
    obtain ⟨hready, hauto⟩ := hfire
    have hsyncs0 : s.syncsStarted = 0 := by
      rcases Nat.lt_or_ge s.syncsStarted 1 with h | h
      · omega
      · have heq : s.syncsStarted = 1 := le_antisymm h2 h
        have := h3.mpr heq
        rw [ha, this] at hauto
        exact absurd hauto (by simp)
    refine ⟨by simp [hu, h1], by simp [hc, hsyncs0], by simp [hc, hsyncs0], by simp⟩
  · rename_i hnofire
    refine ⟨by simp [hu, h1], by simp [hc, h2], ?_, ?_⟩
    · rw [ha, hc]
      exact h3
    · intro hready
      rw [Bool.and_eq_true, Bool.not_eq_true'] at hnofire
      push_neg at hnofire
      rw [ha]
      have := hnofire hready
      rw [ha] at this
      cases hb : s.autoSynced
      · exact absurd hb this
      · rfl

/-- The session invariant is preserved by any run of status updates. -/
theorem sessionInvariant_run {u : String} {s : HomeState} {l : List HomeEvent}
    (hs : sessionInvariant u s) (he : ∀ e ∈ l, statusEvent e = true) :
    sessionInvariant u (homeRun s l) := by
  induction l generalizing s with
  | nil => exact hs
  | cons e es ih =>
    exact ih (sessionInvariant_step hs (he e (List.mem_cons_self e es)))
      (fun x hx => he x (List.mem_cons_of_mem _ hx))

/-- Once the automatic trigger has fired, further status updates neither
reset it nor start another sync. -/
theorem homeRun_fired {s : HomeState} {l : List HomeEvent}
    (he : ∀ e ∈ l, statusEvent e = true) (ha : s.autoSynced = true) :
    (homeRun s l).autoSynced = true ∧ (homeRun s l).syncsStarted = s.syncsStarted := by
  induction l generalizing s with
  | nil => exact ⟨ha, rfl⟩
  | cons e es ih =>
    have he0 := he e (List.mem_cons_self e es)
    obtain ⟨hu, hae, hc⟩ := applyEvent_status (s := s) he0
    have hstep : homeStep s e = applyEvent s e := by
      rw [homeStep_status_eq he0, if_neg]
      simp [hae, ha]
    show (homeRun (homeStep s e) es).autoSynced = true ∧
      (homeRun (homeStep s e) es).syncsStarted = s.syncsStarted
    rw [hstep]
    have hrec := ih (fun x hx => he x (List.mem_cons_of_mem _ hx)) (by rw [hae]; exact ha)
    exact ⟨hrec.1, by rw [hrec.2, hc]⟩

/-- If no prefix of a run of status updates ever reaches the both-connected
state, the trigger never fires and no sync is started. -/
theorem homeRun_no_ready {s : HomeState} {l : List HomeEvent}
    (he : ∀ e ∈ l, statusEvent e = true)
    (hnr : ∀ n, readyToAutoSync (homeRun s (l.take n)) = false) :
    (homeRun s l).autoSynced = s.autoSynced ∧
    (homeRun s l).syncsStarted = s.syncsStarted := by
  induction l generalizing s with
  | nil => exact ⟨rfl, rfl⟩
  | cons e es ih =>
    have he0 := he e (List.mem_cons_self e es)
    obtain ⟨hu, hae, hc⟩ := applyEvent_status (s := s) he0
    have hr1 : readyToAutoSync (homeStep s e) = false := by
      have := hnr 1
      simpa [homeRun] using this
    have hra : readyToAutoSync (applyEvent s e) = false := by
      rw [← readyToAutoSync_homeStep he0]
      exact hr1
    have hstep : homeStep s e = applyEvent s e := by
      rw [homeStep_status_eq he0, if_neg]
      simp [hra]
    show (homeRun (homeStep s e) es).autoSynced = s.autoSynced ∧
      (homeRun (homeStep s e) es).syncsStarted = s.syncsStarted
    rw [hstep]
    have hshift : ∀ n, readyToAutoSync (homeRun (applyEvent s e) (es.take n)) = false := by
      intro n
      have := hnr (n + 1)
      rw [List.take_succ_cons] at this
      show readyToAutoSync (homeRun (applyEvent s e) (es.take n)) = false
      rw [← hstep]
      exact this
    have hrec := ih (fun x hx => he x (List.mem_cons_of_mem _ hx)) hshift
    exact ⟨by rw [hrec.1, hae], by rw [hrec.2, hc]⟩

/-- A run splits at any index. -/
theorem homeRun_take_drop (s : HomeState) (evs : List HomeEvent) (n : Nat) :
    homeRun s evs = homeRun (homeRun s (evs.take n)) (evs.drop n) := by
  rw [homeRun, homeRun, homeRun, ← List.foldl_append, List.take_append_drop]

/-- C4: within one user session (the user identity fixed, connection status
updates arriving), the automatic sync trigger starts at most one sync, and
starts exactly one iff at some point both integrations are simultaneously
connected — the single start happening the first time that holds, and the
trigger never firing again afterwards in the session. -/
theorem autoSync_fires_exactly_once (u : String) (events : List HomeEvent)
    (he : ∀ e ∈ events, statusEvent e = true) :
    (homeRun (initHomeState (some u)) events).syncsStarted ≤ 1 ∧
    ((homeRun (initHomeState (some u)) events).syncsStarted = 1 ↔
      ∃ n, readyToAutoSync (homeRun (initHomeState (some u)) (events.take n)) = true) := by
  have hinv0 : sessionInvariant u (initHomeState (some u)) := by
    refine ⟨rfl, by simp [initHomeState], by simp [initHomeState], ?_⟩
    intro hr
    exact absurd hr (by simp [readyToAutoSync, initHomeState])
  have hinvrun : ∀ n, sessionInvariant u (homeRun (initHomeState (some u)) (events.take n)) :=
    fun n => sessionInvariant_run hinv0 (fun x hx => he x (List.mem_of_mem_take hx))
  have hinv := sessionInvariant_run hinv0 he
  refine ⟨hinv.2.1, ?_, ?_⟩
  · intro h1
    by_contra hne
    push_neg at hne
    have hnr : ∀ n, readyToAutoSync (homeRun (initHomeState (some u)) (events.take n)) = false :=
      fun n => by simpa using hne n
    have := homeRun_no_ready he hnr
    rw [this.2] at h1
    exact absurd h1 (by simp [initHomeState])
  · rintro ⟨n, hn⟩
    have hsn := hinvrun n
    have hauto : (homeRun (initHomeState (some u)) (events.take n)).autoSynced = true :=
      hsn.2.2.2 hn
    have hs1 : (homeRun (initHomeState (some u)) (events.take n)).syncsStarted = 1 :=
      hsn.2.2.1.mp hauto
    rw [homeRun_take_drop (initHomeState (some u)) events n]
    have hrest := homeRun_fired (l := events.drop n)
      (fun x hx => he x (List.mem_of_mem_drop hx)) hauto
    rw [hrest.2, hs1]

/-- Witness for C4: a session where Gmail and then HubSpot become connected
starts exactly one automatic sync. -/
theorem autoSync_fires_exactly_once_witness :
    (∀ e ∈ [HomeEvent.setGmailState ConnectionState.connected,
            HomeEvent.setHubspotState ConnectionState.connected], statusEvent e = true) ∧
    ((homeRun (initHomeState (some ("u1")))
        [HomeEvent.setGmailState ConnectionState.connected,
         HomeEvent.setHubspotState ConnectionState.connected]).syncsStarted ≤ 1 ∧
     ((homeRun (initHomeState (some ("u1")))
        [HomeEvent.setGmailState ConnectionState.connected,
         HomeEvent.setHubspotState ConnectionState.connected]).syncsStarted = 1 ↔
       ∃ n, readyToAutoSync (homeRun (initHomeState (some ("u1")))
         (([HomeEvent.setGmailState ConnectionState.connected,
            HomeEvent.setHubspotState ConnectionState.connected]).take n)) = true)) :=
  ⟨by decide, autoSync_fires_exactly_once ("u1") _ (by decide)⟩

/-- Membership in an ordered insert. -/
theorem mem_insertByReceived {a r : RawMessage} {l : List RawMessage} :
    a ∈ insertByReceived r l ↔ a = r ∨ a ∈ l := by
  induction l with
  | nil => simp [insertByReceived]
  | cons x xs ih =>
    simp only [insertByReceived]
    split
    · simp [List.mem_cons]
    · simp only [List.mem_cons, ih]
      tauto

/-- Sorting the fetch window does not change its elements. -/
theorem mem_sortOldestFirst {a : RawMessage} {l : List RawMessage} :
    a ∈ sortOldestFirst l ↔ a ∈ l := by
  induction l with
  | nil => simp [sortOldestFirst]
  | cons x xs ih => simp [sortOldestFirst, mem_insertByReceived, ih]

/-- Every message of the fetch window comes from the mailbox and was
received strictly after the floor. -/
theorem mem_fetchWindow {a : RawMessage} {mailbox : List RawMessage} {floorAt : Int}
    {maxMessages : Nat} (h : a ∈ fetchWindow mailbox floorAt maxMessages) :
    a ∈ mailbox ∧ floorAt < a.received_at := by
  have h1 := List.mem_of_mem_take h
  rw [mem_sortOldestFirst] at h1
  have h2 := List.mem_filter.mp h1
  exact ⟨h2.1, by simpa using h2.2⟩

/-- The fetch floor is never below the baseline. -/
theorem baseline_le_fetchFloor (conn : GmailConnection) :
    conn.baseline_at ≤ fetchFloor conn := by
  unfold fetchFloor
  cases conn.last_poll_at with
  | none => exact le_refl _
  | some t => exact le_max_left _ _

/-- Merging never changes the row key. -/
theorem mergeRow_key (old incoming : StoredMessage) :
    messageKey (mergeRow old incoming) = messageKey old := by
  unfold mergeRow messageKey
  split <;> rfl

/-- Merging never changes the owner. -/
theorem mergeRow_user_id (old incoming : StoredMessage) :
    (mergeRow old incoming).user_id = old.user_id := by
  unfold mergeRow
  split <;> rfl

/-- The key collision test agrees with key equality. -/
theorem sameKey_iff (a b : StoredMessage) :
    sameKey a b = true ↔ messageKey a = messageKey b := by
  unfold sameKey messageKey
  simp [Prod.ext_iff]

/-- An upsert preserves any row predicate that the incoming row satisfies
and that merging preserves. -/
theorem upsertMessage_forall {Q : StoredMessage → Prop} {incoming : StoredMessage}
    {store : List StoredMessage} (hinc : Q incoming)
    (hmerge : ∀ old, Q old → Q (mergeRow old incoming))
    (hstore : ∀ m ∈ store, Q m) :
    ∀ m ∈ upsertMessage incoming store, Q m := by
  intro m hm
  unfold upsertMessage at hm
  split at hm
  · obtain ⟨row, hrow, hfm⟩ := List.mem_map.mp hm
    by_cases hk : sameKey incoming row = true
    · rw [if_pos hk] at hfm
      exact hfm ▸ hmerge row (hstore row hrow)
    · rw [if_neg hk] at hfm
      exact hfm ▸ hstore row hrow
  · rcases List.mem_append.mp hm with h | h
    · exact hstore m h
    · rw [List.mem_singleton] at h
      exact h ▸ hinc

/-- Folding a batch of upserts preserves such a row predicate. -/
theorem foldl_upsert_forall {Q : StoredMessage → Prop} {u : String}
    {batch : List RawMessage} {store : List StoredMessage}
    (hQ : ∀ r ∈ batch, Q (ingestRow u r))
    (hmerge : ∀ old r, r ∈ batch → Q old → Q (mergeRow old (ingestRow u r)))
    (hstore : ∀ m ∈ store, Q m) :
    ∀ m ∈ batch.foldl (fun acc r => upsertMessage (ingestRow u r) acc) store, Q m := by
  induction batch generalizing store with
  | nil => exact hstore
  | cons r rs ih =>
    exact ih (fun x hx => hQ x (List.mem_cons_of_mem _ hx))
      (fun old x hx => hmerge old x (List.mem_cons_of_mem _ hx))
      (upsertMessage_forall (hQ r (List.mem_cons_self _ _))
        (fun old ho => hmerge old r (List.mem_cons_self _ _) ho) hstore)

/-- Eviction only removes rows. -/
theorem evictOldest_sublist (u : String) (cap : Nat) (store : List StoredMessage) :
    (evictOldest u cap store).Sublist store := by
  unfold evictOldest
  exact List.filter_sublist store

/-- The cache after a sync pass is the trimmed result of upserting the fetch
window into the previous cache. -/
theorem runSync_store_eq (conn : GmailConnection) (mailbox : List RawMessage)
    (maxMessages cap : Nat) (store : List StoredMessage) :
    (runSync conn mailbox maxMessages cap store).2 =
      evictOldest conn.user_id cap
        ((fetchWindow mailbox (fetchFloor conn) maxMessages).foldl
          (fun acc r => upsertMessage (ingestRow conn.user_id r) acc) store) := rfl

/-- C1: a sync pass never stores a message of the owning connection with
`received_at` earlier than the connection's `baseline_at`: if every cached
row of the user respects the baseline beforehand, every cached row does so
afterwards (newly fetched rows lie strictly above the fetch floor, which is
at least the baseline). -/
theorem runSync_no_message_before_baseline (conn : GmailConnection)
    (mailbox : List RawMessage) (maxMessages cap : Nat) (store : List StoredMessage)
    (hstore : ∀ m ∈ store, m.user_id = conn.user_id → conn.baseline_at ≤ m.received_at) :
    ∀ m ∈ (runSync conn mailbox maxMessages cap store).2,
      m.user_id = conn.user_id → conn.baseline_at ≤ m.received_at := by
  intro m hm
  rw [runSync_store_eq] at hm
  have hm1 := (evictOldest_sublist conn.user_id cap _).mem hm
  refine foldl_upsert_forall ?_ ?_ hstore m hm1
  · intro r hr _
    have := (mem_fetchWindow hr).2
    have hbf := baseline_le_fetchFloor conn
    show conn.baseline_at ≤ (ingestRow conn.user_id r).received_at
    calc conn.baseline_at ≤ fetchFloor conn := hbf
      _ ≤ r.received_at := le_of_lt this
  · intro old r hr hold
    intro huser
    have hu2 : old.user_id = conn.user_id := by
      rw [← mergeRow_user_id old (ingestRow conn.user_id r)]
      exact huser
    have hbase := hold hu2
    unfold mergeRow
    split
    · rename_i hle
      show conn.baseline_at ≤ (ingestRow conn.user_id r).received_at
      exact le_trans hbase hle
    · exact hbase

/-- Witness for C1: a concrete pass over a mailbox holding one message after
and one before the baseline keeps every cached row at or above the
baseline. -/
theorem runSync_no_message_before_baseline_witness :
    (∀ m ∈ ([] : List StoredMessage),
      m.user_id = "u1" → (100 : Int) ≤ m.received_at) ∧
    (∀ m ∈ (runSync
        { user_id := "u1"
          gmail_user := "g"
          email := none
          baseline_at := 100
          baseline_ready := true
          last_poll_at := some 150 }
        [{ message_id := "m1"
           thread_id := none
           subject := "s1"
           sender := "a1"
           snippet := "sn1"
           hasAttachmentParts := false
           hasHttpLinks := false
           hasInlineImages := false
           received_at := 200 },
         { message_id := "m2"
           thread_id := none
           subject := "s2"
           sender := "a2"
           snippet := "sn2"
           hasAttachmentParts := false
           hasHttpLinks := false
           hasInlineImages := false
           received_at := 90 }]
        10 50 []).2,
      m.user_id = "u1" → (100 : Int) ≤ m.received_at) :=
  ⟨by decide, runSync_no_message_before_baseline _ _ _ _ _ (by decide)⟩

/-- Replacing rows in place with the merge keeps the key list unchanged, so
an upsert into a duplicate-free cache stays duplicate-free. -/
theorem upsertMessage_keys_nodup {incoming : StoredMessage} {store : List StoredMessage}
    (h : (store.map messageKey).Nodup) :
    ((upsertMessage incoming store).map messageKey).Nodup := by
  unfold upsertMessage
  split
  · have heq : (store.map
        (fun row => if sameKey incoming row then mergeRow row incoming else row)).map
          messageKey = store.map messageKey := by
      rw [List.map_map]
      refine List.map_congr_left ?_
      intro row _
      show messageKey (if sameKey incoming row then mergeRow row incoming else row) =
        messageKey row
      by_cases hk : sameKey incoming row = true
      · rw [if_pos hk, mergeRow_key]
      · rw [if_neg hk]
    rw [heq]
    exact h
  · rename_i hany
    rw [List.map_append, List.nodup_append]
    refine ⟨h, List.nodup_singleton _, ?_⟩
    intro k hk1 hk2
    rw [List.mem_map] at hk1
    obtain ⟨row, hrow, hkey⟩ := hk1
    rw [List.map_singleton, List.mem_singleton] at hk2
    apply hany
    rw [List.any_eq_true]
    exact ⟨row, hrow, (sameKey_iff incoming row).mpr (by rw [hkey, hk2])⟩

/-- Upserting a row whose key is already present never adds a row. -/
theorem upsertMessage_length_of_exists {incoming : StoredMessage}
    {store : List StoredMessage} (h : ∃ row ∈ store, sameKey incoming row = true) :
    (upsertMessage incoming store).length = store.length := by
  unfold upsertMessage
  rw [if_pos (List.any_eq_true.mpr h)]
  exact List.length_map _ _

/-- Folding a batch of upserts keeps the key list duplicate-free. -/
theorem foldl_upsert_keys_nodup {u : String} {batch : List RawMessage}
    {store : List StoredMessage} (h : (store.map messageKey).Nodup) :
    ((batch.foldl (fun acc r => upsertMessage (ingestRow u r) acc) store).map
      messageKey).Nodup := by
  induction batch generalizing store with
  | nil => exact h
  | cons r rs ih => exact ih (upsertMessage_keys_nodup h)

/-- C2: `(user_id, message_id)` uniquely identifies a cached row — a sync
pass over any fetch window (in particular one overlapping an earlier pass)
keeps the key list duplicate-free, and upserting a message whose key is
already present updates in place and never adds a second row. -/
theorem runSync_no_duplicate_rows (conn : GmailConnection) (mailbox : List RawMessage)
    (maxMessages cap : Nat) (store : List StoredMessage)
    (hkeys : (store.map messageKey).Nodup) :
    (((runSync conn mailbox maxMessages cap store).2).map messageKey).Nodup ∧
    (∀ incoming, (∃ row ∈ store, sameKey incoming row = true) →
      (upsertMessage incoming store).length = store.length) := by
  constructor
  · rw [runSync_store_eq]
    exact List.Nodup.sublist
      ((evictOldest_sublist conn.user_id cap _).map messageKey)
      (foldl_upsert_keys_nodup hkeys)
  · intro incoming h
    exact upsertMessage_length_of_exists h

/-- Witness for C2: a pass that re-fetches an already-cached message leaves
the key list duplicate-free, and such an upsert does not grow the cache. -/
theorem runSync_no_duplicate_rows_witness :
    (([{ user_id := "u1", message_id := "m1", subject := "s1", sender := "a1", snippet := "sn1", status := "new", has_attachments := false, has_links := false, has_images := false, crm_record_url := none, error := none, received_at := 120 }] : List StoredMessage).map messageKey).Nodup ∧
    ((((runSync
        { user_id := "u1", gmail_user := "g", email := none, baseline_at := 100, baseline_ready := true, last_poll_at := some 110 }
        [{ message_id := "m1", thread_id := none, subject := "s1", sender := "a1", snippet := "sn1", hasAttachmentParts := false, hasHttpLinks := false, hasInlineImages := false, received_at := 120 }]
        10 50
        [{ user_id := "u1", message_id := "m1", subject := "s1", sender := "a1", snippet := "sn1", status := "new", has_attachments := false, has_links := false, has_images := false, crm_record_url := none, error := none, received_at := 120 }]).2).map messageKey).Nodup ∧
     (∀ incoming,
       (∃ row ∈ ([{ user_id := "u1", message_id := "m1", subject := "s1", sender := "a1", snippet := "sn1", status := "new", has_attachments := false, has_links := false, has_images := false, crm_record_url := none, error := none, received_at := 120 }] : List StoredMessage), sameKey incoming row = true) →
       (upsertMessage incoming [{ user_id := "u1", message_id := "m1", subject := "s1", sender := "a1", snippet := "sn1", status := "new", has_attachments := false, has_links := false, has_images := false, crm_record_url := none, error := none, received_at := 120 }]).length = 1)) :=
  ⟨by decide, runSync_no_duplicate_rows _ _ _ _ _ (by decide)⟩

/-- C6: the status of every cached row is always one of exactly `new`,
`processed`, `error` — a row is created in status `new` at first ingestion
(the schema default), and both the sync pass and the enrichment report keep
every stored status inside the closed enumeration. -/
theorem status_closed_enumeration (conn : GmailConnection) (mailbox : List RawMessage)
    (maxMessages cap : Nat) (store : List StoredMessage) (u mid : String)
    (outcome : EnrichmentOutcome)
    (hstore : ∀ m ∈ store, validStatus m.status) :
    (∀ (v : String) (r : RawMessage), (ingestRow v r).status = "new") ∧
    (∀ m ∈ (runSync conn mailbox maxMessages cap store).2, validStatus m.status) ∧
    (∀ m ∈ applyEnrichment u mid outcome store, validStatus m.status) := by
  refine ⟨fun v r => rfl, ?_, ?_⟩
  · intro m hm
    rw [runSync_store_eq] at hm
    have hm1 := (evictOldest_sublist conn.user_id cap _).mem hm
    refine foldl_upsert_forall ?_ ?_ hstore m hm1
    · intro r _
      exact Or.inl rfl
    · intro old r _ hold
      unfold mergeRow
      split
      · exact Or.inl rfl
      · exact hold
  · intro m hm
    obtain ⟨row, hrow, heq⟩ := List.mem_map.mp hm
    by_cases hk : (row.user_id == u && row.message_id == mid) = true
    · rw [if_pos hk] at heq
      cases outcome with
      | success crmUrl => exact heq ▸ Or.inr (Or.inl rfl)
      | failure detail => exact heq ▸ Or.inr (Or.inr rfl)
    · rw [if_neg hk] at heq
      exact heq ▸ hstore row hrow

/-- Witness for C6: ingestion of a concrete message creates it `new`, and a
pass plus a failure report keep all statuses in the enumeration. -/
theorem status_closed_enumeration_witness :
    (∀ m ∈ ([{ user_id := "u1", message_id := "m1", subject := "s1", sender := "a1", snippet := "sn1", status := "new", has_attachments := false, has_links := false, has_images := false, crm_record_url := none, error := none, received_at := 120 }] : List StoredMessage), validStatus m.status) ∧
    ((∀ (v : String) (r : RawMessage), (ingestRow v r).status = "new") ∧
     (∀ m ∈ (runSync
        { user_id := "u1", gmail_user := "g", email := none, baseline_at := 100, baseline_ready := true, last_poll_at := some 110 }
        [{ message_id := "m2", thread_id := none, subject := "s2", sender := "a2", snippet := "sn2", hasAttachmentParts := false, hasHttpLinks := false, hasInlineImages := false, received_at := 130 }]
        10 50
        [{ user_id := "u1", message_id := "m1", subject := "s1", sender := "a1", snippet := "sn1", status := "new", has_attachments := false, has_links := false, has_images := false, crm_record_url := none, error := none, received_at := 120 }]).2,
       validStatus m.status) ∧
     (∀ m ∈ applyEnrichment ("u1") ("m1") (EnrichmentOutcome.failure ("boom"))
        [{ user_id := "u1", message_id := "m1", subject := "s1", sender := "a1", snippet := "sn1", status := "new", has_attachments := false, has_links := false, has_images := false, crm_record_url := none, error := none, received_at := 120 }],
       validStatus m.status)) :=
  ⟨by decide, status_closed_enumeration _ _ _ _ _ _ _ _ (by decide)⟩

/-- C3: disconnecting Gmail removes the user's connection row, and the
schema's `on delete cascade` removes every message row of that user; rows of
other users are untouched, and no message row is left without an owning
connection. -/
theorem disconnectGmail_cascades (u : String) (db : Db)
    (href : ∀ m ∈ db.messages, ∃ c ∈ db.connections, c.user_id = m.user_id) :
    (∀ c ∈ (disconnectGmail u db).connections, c.user_id ≠ u) ∧
    (∀ m ∈ (disconnectGmail u db).messages, m.user_id ≠ u) ∧
    (∀ c ∈ db.connections, c.user_id ≠ u → c ∈ (disconnectGmail u db).connections) ∧
    (∀ m ∈ db.messages, m.user_id ≠ u → m ∈ (disconnectGmail u db).messages) ∧
    (∀ m ∈ (disconnectGmail u db).messages,
      ∃ c ∈ (disconnectGmail u db).connections, c.user_id = m.user_id) := by
  refine ⟨?_, ?_, ?_, ?_, ?_⟩
  · intro c hc
    exact bne_iff_ne.mp (List.mem_filter.mp hc).2
  · intro m hm
    exact bne_iff_ne.mp (List.mem_filter.mp hm).2
  · intro c hc hne
    exact List.mem_filter.mpr ⟨hc, bne_iff_ne.mpr hne⟩
  · intro m hm hne
    exact List.mem_filter.mpr ⟨hm, bne_iff_ne.mpr hne⟩
  · intro m hm
    have hm1 := List.mem_filter.mp hm
    obtain ⟨c, hc, hcu⟩ := href m hm1.1
    refine ⟨c, List.mem_filter.mpr ⟨hc, ?_⟩, hcu⟩
    rw [bne_iff_ne, hcu]
    exact bne_iff_ne.mp hm1.2

/-- Witness for C3: disconnecting one of two users removes exactly that
user's connection and messages. -/
theorem disconnectGmail_cascades_witness :
    (∀ m ∈ sampleDb.messages, ∃ c ∈ sampleDb.connections, c.user_id = m.user_id) ∧
    (∀ m ∈ (disconnectGmail ("u1") sampleDb).messages, m.user_id ≠ "u1") ∧
    (∀ c ∈ (disconnectGmail ("u1") sampleDb).connections, c.user_id ≠ "u1") :=
  ⟨by decide,
    (disconnectGmail_cascades ("u1") sampleDb (by decide)).2.1,
    (disconnectGmail_cascades ("u1") sampleDb (by decide)).1⟩
